import Mathlib

/-!
Shallow embedding of the globalmkt exostack-integration control plane:
the GPU-aware scheduler (`hub/services/gpu_scheduler.py`), the Redis-backed
registry and task store (`hub/services/registry.py`), the task scheduler
(`hub/services/scheduler.py`), and the P2P handoff service
(`hub/services/p2p_handoff.py`).

Python floats are modelled as `Rat`; wall-clock timestamps as `Nat`
seconds; Redis hashes and sets as association lists and lists of keys.
The asyncio code is single-threaded and none of the functions modelled
here suspends between a load check and the matching increment, so the
operations are embedded as atomic state transformers.
-/

namespace GpuSched

/-- One entry of `gpu_info['devices']` as read by
`GPUScheduler._node_meets_requirements`: `memory_total_gb`,
`memory_allocated_gb`, and the `float()`-parsed `compute_capability`
(`none` models a string whose parse raises `ValueError`). -/
structure GpuDevice where
  memory_total_gb : Rat
  memory_allocated_gb : Rat
  compute_capability : Option Rat
deriving Repr, DecidableEq

/-- `shared.models.base.ComputeResources` plus the two `gpu_info` keys the
scheduler reads (`devices`, `total_memory_gb`). -/
structure ComputeResources where
  cpu_cores : Nat
  total_ram_gb : Rat
  available_ram_gb : Rat
  has_gpu : Bool
  gpu_devices : List GpuDevice
  gpu_total_memory_gb : Rat
deriving Repr, DecidableEq

/-- `shared.models.base.AgentNode`, restricted to the fields the GPU
scheduler reads; `streaming` is `capabilities.streaming`. -/
structure AgentNode where
  id : String
  streaming : Bool
  compute_resources : ComputeResources
  supported_models : List String
  max_concurrent_tasks : Nat
  current_tasks : Nat
deriving Repr, DecidableEq

/-- `shared.models.base.TaskRequirements`; `min_compute_capability` is the
`float()`-parsed optional string. -/
structure TaskRequirements where
  requires_gpu : Bool
  min_ram_gb : Rat
  min_gpu_memory_gb : Rat
  min_compute_capability : Option Rat
  preferred_models : List String
  max_duration_seconds : Nat
deriving Repr, DecidableEq

/-- `shared.models.base.TaskPriority`, a `str` enum. -/
inductive TaskPriority where
  | low
  | normal
  | high
  | urgent
deriving Repr, DecidableEq

/-- `.value` of the `TaskPriority` str enum. -/
def TaskPriority.val : TaskPriority → String
  | .low => "low"
  | .normal => "normal"
  | .high => "high"
  | .urgent => "urgent"

/-- `shared.models.base.InferenceTask`, restricted to the fields the GPU
scheduler reads; `created_at` in seconds. -/
structure InferenceTask where
  id : String
  model : String
  task_type : String
  requirements : TaskRequirements
  priority : TaskPriority
  created_at : Nat
deriving Repr, DecidableEq

/-- Free memory of one GPU device:
`device.get('memory_total_gb', 0) - device.get('memory_allocated_gb', 0)`. -/
def GpuDevice.availableMemory (d : GpuDevice) : Rat :=
  d.memory_total_gb - d.memory_allocated_gb

/-- `GPUScheduler._node_meets_requirements`, translated check by check in
source order (GPU presence, RAM, GPU memory, compute capability, load). -/
def nodeMeetsRequirements (node : AgentNode) (req : TaskRequirements) : Bool :=
  if req.requires_gpu && !node.compute_resources.has_gpu then
    false
  else if node.compute_resources.available_ram_gb < req.min_ram_gb then
    false
  else if req.min_gpu_memory_gb > 0 &&
      (!node.compute_resources.has_gpu ||
       !node.compute_resources.gpu_devices.any
          (fun d => d.availableMemory ≥ req.min_gpu_memory_gb)) then
    false
  else if (match req.min_compute_capability with
           | some cap =>
             !node.compute_resources.has_gpu ||
             !node.compute_resources.gpu_devices.any
                (fun d => match d.compute_capability with
                          | some dc => dc ≥ cap
                          | none => false)
           | none => false) then
    false
  else if node.current_tasks ≥ node.max_concurrent_tasks then
    false
  else
    true

/-- `min` on `Rat`, for the score clamp `min(total_gpu_memory / 10, 10)`. -/
def ratMin (a b : Rat) : Rat :=
  if a ≤ b then a else b

/-- `GPUScheduler._calculate_node_score`. `Rat` division by zero yields 0
where Python would raise (caught by the per-task handler in the loop); the
scored states in this development all have positive denominators. -/
def calcNodeScore (node : AgentNode) (task : InferenceTask) : Rat :=
  let ramRatio := node.compute_resources.available_ram_gb / node.compute_resources.total_ram_gb
  let s1 := ramRatio * 10
  let s2 :=
    if task.requirements.requires_gpu && node.compute_resources.has_gpu then
      s1 + 20 + ratMin (node.compute_resources.gpu_total_memory_gb / 10) 10
    else s1
  let loadRatio := (node.current_tasks : Rat) / (node.max_concurrent_tasks : Rat)
  let s3 := s2 - loadRatio * 15
  let s4 :=
    if task.model ≠ "auto" && node.supported_models.contains task.model then
      s3 + 5
    else s3
  let s5 := s4 +
    3 * ((task.requirements.preferred_models.filter
           (fun m => node.supported_models.contains m)).length : Rat)
  if task.task_type == "streaming" && node.streaming then s5 + 5 else s5

/-- `GPUScheduler._find_suitable_nodes` over a given active-node list. -/
def findSuitableNodes (nodes : List AgentNode) (req : TaskRequirements) : List AgentNode :=
  nodes.filter (fun n => nodeMeetsRequirements n req)

/-- Suitable nodes together with their position in the registry list; the
position stands for the identity of the shared Python node object that
`_assign_task_to_node` mutates in place. -/
def candidatesFrom (req : TaskRequirements) : Nat → List AgentNode → List (Nat × AgentNode)
  | _, [] => []
  | i, n :: rest =>
    if nodeMeetsRequirements n req then
      (i, n) :: candidatesFrom req (i + 1) rest
    else
      candidatesFrom req (i + 1) rest

/-- The head of the score-descending stable sort in `_find_best_node`:
the earliest candidate of maximal score (Python `sort` is stable and
`reverse=True` keeps the first maximal element first). -/
def pickBest (task : InferenceTask) : List (Nat × AgentNode) → Option (Nat × AgentNode)
  | [] => none
  | c :: rest =>
    some (rest.foldl
      (fun b p => if calcNodeScore p.2 task > calcNodeScore b.2 task then p else b) c)

/-- `GPUScheduler._find_best_node`, returning the chosen node and its
position in the node list. -/
def findBestIdx (nodes : List AgentNode) (task : InferenceTask) : Option (Nat × AgentNode) :=
  pickBest task (candidatesFrom task.requirements 0 nodes)

/-- Replace the element at one position, modelling in-place mutation of
the shared node object. -/
def modifyIdx (f : AgentNode → AgentNode) : Nat → List AgentNode → List AgentNode
  | _, [] => []
  | 0, n :: rest => f n :: rest
  | i + 1, n :: rest => n :: modifyIdx f i rest

/-- Scheduler state: the registry's active node list (shared mutable
objects) plus the scheduler's own queue and tracking dicts. -/
structure SchedState where
  nodes : List AgentNode
  task_queue : List InferenceTask
  running_tasks : List (String × InferenceTask)
  task_assignments : List (String × String)
deriving Repr, DecidableEq

/-- `GPUScheduler.submit_task`: reject (status `failed`, error
"No suitable nodes available") when `_find_suitable_nodes` is empty,
otherwise append to `task_queue`. -/
def submitTask (st : SchedState) (task : InferenceTask) : Bool × SchedState :=
  if (findSuitableNodes st.nodes task.requirements).isEmpty then
    (false, st)
  else
    (true, { st with task_queue := st.task_queue ++ [task] })

/-- Python's lexicographic string order (code-point comparison), used by
the tuple sort key. -/
def listLt : List Char → List Char → Bool
  | [], [] => false
  | [], _ :: _ => true
  | _ :: _, [] => false
  | a :: as, b :: bs =>
    if a.toNat < b.toNat then true
    else if a.toNat == b.toNat then listLt as bs
    else false

/-- `a < b` on Python strings. -/
def strLtB (a b : String) : Bool :=
  listLt a.data b.data

/-- Sort key comparison of
`task_queue.sort(key=lambda t: (t.priority.value, t.created_at))`:
ascending lexicographic on the pair (priority string, created_at). -/
def taskKeyLe (a b : InferenceTask) : Bool :=
  if strLtB a.priority.val b.priority.val then true
  else if strLtB b.priority.val a.priority.val then false
  else a.created_at ≤ b.created_at

/-- Stable insertion of one task into an already-sorted list (equal keys
keep their original relative order, as Python `list.sort` guarantees). -/
def insertSorted (t : InferenceTask) : List InferenceTask → List InferenceTask
  | [] => [t]
  | u :: rest =>
    if taskKeyLe u t then u :: insertSorted t rest else t :: u :: rest

/-- The in-place `task_queue.sort(...)` of `_process_task_queue`. -/
def sortQueue (queue : List InferenceTask) : List InferenceTask :=
  queue.foldl (fun acc t => insertSorted t acc) []

/-- `GPUScheduler._assign_task_to_node` preceded by the `_find_best_node`
lookup of `_process_task_queue`: on success increments the chosen node's
`current_tasks` and records the task in `running_tasks` /
`task_assignments`. -/
def tryAssign (st : SchedState) (task : InferenceTask) : SchedState × Bool :=
  match findBestIdx st.nodes task with
  | none => (st, false)
  | some (i, n) =>
    ({ st with
        nodes := modifyIdx (fun m => { m with current_tasks := m.current_tasks + 1 }) i st.nodes,
        running_tasks := st.running_tasks ++ [(task.id, task)],
        task_assignments := st.task_assignments ++ [(task.id, n.id)] },
     true)

/-- The per-task loop body of `_process_task_queue`, returning the final
state and the ids collected in `tasks_to_remove`. -/
def processGo : List InferenceTask → SchedState → SchedState × List String
  | [], st => (st, [])
  | t :: rest, st =>
    let (st2, ok) := tryAssign st t
    let (st3, removed) := processGo rest st2
    (st3, if ok then t.id :: removed else removed)

/-- `GPUScheduler._process_task_queue`: sort the queue, attempt assignment
for each task in order, then drop the assigned tasks from the queue. -/
def processTaskQueue (st : SchedState) : SchedState :=
  let sorted := sortQueue st.task_queue
  let (st2, removed) := processGo sorted { st with task_queue := sorted }
  { st2 with task_queue := st2.task_queue.filter (fun t => !removed.contains t.id) }

/-- Decrement the first node with the given id, floored at 0
(`node.current_tasks = max(0, node.current_tasks - 1)` on the object
returned by `registry.get_node`). -/
def decFirst (nid : String) : List AgentNode → List AgentNode
  | [] => []
  | n :: rest =>
    if n.id == nid then
      { n with current_tasks := n.current_tasks - 1 } :: rest
    else
      n :: decFirst nid rest

/-- Association-list lookup, modelling Python dict access. -/
def lookupA {α : Type} (l : List (String × α)) (k : String) : Option α :=
  (l.find? (fun p => p.1 == k)).map (fun p => p.2)

/-- `GPUScheduler.complete_task`: release the assigned node's load and
drop the tracking entries; unknown task ids are ignored. -/
def completeTask (st : SchedState) (task_id : String) : SchedState :=
  match lookupA st.running_tasks task_id with
  | none => st
  | some _ =>
    let st2 :=
      match lookupA st.task_assignments task_id with
      | some nid => { st with nodes := decFirst nid st.nodes }
      | none => st
    { st2 with
        running_tasks := st2.running_tasks.filter (fun p => p.1 ≠ task_id),
        task_assignments := st2.task_assignments.filter (fun p => p.1 ≠ task_id) }

/-- The scheduler operations that touch node load. -/
inductive SchedOp where
  | submit (t : InferenceTask)
  | tick
  | complete (task_id : String)

/-- One scheduler operation as an atomic state transformer. -/
def applyOp (st : SchedState) : SchedOp → SchedState
  | .submit t => (submitTask st t).2
  | .tick => processTaskQueue st
  | .complete tid => completeTask st tid

/-- A sequence of scheduler operations. -/
def runOps (st : SchedState) (ops : List SchedOp) : SchedState :=
  ops.foldl applyOp st

/-- The capacity invariant of spec §3: every node's `current_tasks` is at
most its `max_concurrent_tasks`. -/
def nodesWithinCapacity (st : SchedState) : Prop :=
  ∀ n ∈ st.nodes, n.current_tasks ≤ n.max_concurrent_tasks

instance (st : SchedState) : Decidable (nodesWithinCapacity st) :=
  List.decidableBAll _ st.nodes

theorem nodeMeets_load_lt {n : AgentNode} {req : TaskRequirements}
    (h : nodeMeetsRequirements n req = true) :
    n.current_tasks < n.max_concurrent_tasks := by
  unfold nodeMeetsRequirements at h
  repeat split at h
  all_goals simp_all

theorem candidatesFrom_mem {req : TaskRequirements} :
    ∀ (nodes : List AgentNode) (k i : Nat) (n : AgentNode),
      (i, n) ∈ candidatesFrom req k nodes →
      nodeMeetsRequirements n req = true ∧ k ≤ i ∧ nodes.get? (i - k) = some n := by
  intro nodes
  induction nodes with
  | nil => intro k i n h; simp [candidatesFrom] at h
  | cons x rest ih =>
    intro k i n h
    unfold candidatesFrom at h
    by_cases hx : nodeMeetsRequirements x req = true
    · rw [if_pos hx] at h
      rcases List.mem_cons.mp h with heq | htail
      · obtain ⟨hik, hnx⟩ := Prod.mk.injEq .. ▸ heq
        subst hik; subst hnx
        exact ⟨hx, Nat.le_refl _, by simp⟩
      · obtain ⟨hm, hki, hget⟩ := ih (k + 1) i n htail
        refine ⟨hm, Nat.le_of_succ_le hki, ?_⟩
        have hik : i - k = (i - (k + 1)) + 1 := by omega
        rw [hik]
        simpa using hget
    · rw [if_neg hx] at h
      obtain ⟨hm, hki, hget⟩ := ih (k + 1) i n h
      refine ⟨hm, Nat.le_of_succ_le hki, ?_⟩
      have hik : i - k = (i - (k + 1)) + 1 := by omega
      rw [hik]
      simpa using hget

theorem foldl_choice_mem {α : Type} (g : α → α → α)
    (hg : ∀ b p, g b p = b ∨ g b p = p) :
    ∀ (l : List α) (c : α), l.foldl g c ∈ c :: l := by
  intro l
  induction l with
  | nil => intro c; simp
  | cons x rest ih =>
    intro c
    simp only [List.foldl]
    rcases List.mem_cons.mp (ih (g c x)) with h | h
    · rcases hg c x with hc | hc
      · rw [h, hc]; exact List.mem_cons_self ..
      · rw [h, hc]; exact List.mem_cons_of_mem _ (List.mem_cons_self ..)
    · exact List.mem_cons_of_mem _ (List.mem_cons_of_mem _ h)

theorem pickBest_mem {task : InferenceTask} {l : List (Nat × AgentNode)}
    {p : Nat × AgentNode} (h : pickBest task l = some p) : p ∈ l := by
  cases l with
  | nil => simp [pickBest] at h
  | cons c rest =>
    simp only [pickBest, Option.some.injEq] at h
    subst h
    exact foldl_choice_mem _
      (fun b q => by
        by_cases hq : calcNodeScore q.2 task > calcNodeScore b.2 task
        · exact Or.inr (if_pos hq)
        · exact Or.inl (if_neg hq)) rest c

theorem findBestIdx_spec {nodes : List AgentNode} {task : InferenceTask}
    {i : Nat} {n : AgentNode} (h : findBestIdx nodes task = some (i, n)) :
    nodes.get? i = some n ∧ nodeMeetsRequirements n task.requirements = true := by
  have hmem := pickBest_mem h
  obtain ⟨hm, _, hget⟩ := candidatesFrom_mem nodes 0 i n hmem
  exact ⟨by simpa using hget, hm⟩

theorem modifyIdx_forall {P : AgentNode → Prop} (f : AgentNode → AgentNode) :
    ∀ (l : List AgentNode) (i : Nat),
      (∀ x ∈ l, P x) → (∀ x, l.get? i = some x → P (f x)) →
      ∀ y ∈ modifyIdx f i l, P y := by
  intro l
  induction l with
  | nil => intro i _ _ y hy; simp [modifyIdx] at hy
  | cons x rest ih =>
    intro i hall hf y hy
    cases i with
    | zero =>
      simp only [modifyIdx] at hy
      rcases List.mem_cons.mp hy with rfl | h
      · exact hf x rfl
      · exact hall y (List.mem_cons_of_mem _ h)
    | succ j =>
      simp only [modifyIdx] at hy
      rcases List.mem_cons.mp hy with rfl | h
      · exact hall y (List.mem_cons_self ..)
      · exact ih j (fun z hz => hall z (List.mem_cons_of_mem _ hz))
          (fun z hz => hf z (by simpa using hz)) y h

theorem decFirst_capacity {nid : String} :
    ∀ (l : List AgentNode),
      (∀ x ∈ l, x.current_tasks ≤ x.max_concurrent_tasks) →
      ∀ y ∈ decFirst nid l, y.current_tasks ≤ y.max_concurrent_tasks := by
  intro l
  induction l with
  | nil => intro _ y hy; simp [decFirst] at hy
  | cons x rest ih =>
    intro hall y hy
    unfold decFirst at hy
    by_cases hx : (x.id == nid) = true
    · rw [if_pos hx] at hy
      rcases List.mem_cons.mp hy with rfl | h
      · have hx2 := hall x (List.mem_cons_self ..)
        simp only []
        omega
      · exact hall y (List.mem_cons_of_mem _ h)
    · rw [if_neg hx] at hy
      rcases List.mem_cons.mp hy with rfl | h
      · exact hall y (List.mem_cons_self ..)
      · exact ih (fun z hz => hall z (List.mem_cons_of_mem _ hz)) y h

theorem tryAssign_capacity (st : SchedState) (t : InferenceTask)
    (h : nodesWithinCapacity st) : nodesWithinCapacity (tryAssign st t).1 := by
  cases hb : findBestIdx st.nodes t with
  | none => simpa [tryAssign, hb] using h
  | some p =>
    obtain ⟨i, n⟩ := p
    have hspec := findBestIdx_spec hb
    simp only [tryAssign, hb]
    intro y hy
    refine modifyIdx_forall _ st.nodes i h ?_ y hy
    intro x hx
    have hxn : x = n := by
      rw [hspec.1] at hx
      exact (Option.some_inj.mp hx).symm
    subst hxn
    have hlt := nodeMeets_load_lt hspec.2
    simp only []
    omega

theorem processGo_capacity :
    ∀ (l : List InferenceTask) (st : SchedState),
      nodesWithinCapacity st → nodesWithinCapacity (processGo l st).1 := by
  intro l
  induction l with
  | nil => intro st h; simpa [processGo] using h
  | cons t rest ih =>
    intro st h
    have h2 := tryAssign_capacity st t h
    cases htr : tryAssign st t with
    | mk st2 ok =>
      rw [htr] at h2
      have h3 := ih st2 h2
      cases hpg : processGo rest st2 with
      | mk st3 removed =>
        rw [hpg] at h3
        simpa [processGo, htr, hpg] using h3

theorem processTaskQueue_capacity (st : SchedState)
    (h : nodesWithinCapacity st) : nodesWithinCapacity (processTaskQueue st) := by
  have hin : nodesWithinCapacity { st with task_queue := sortQueue st.task_queue } :=
    fun n hn => h n hn
  have h2 := processGo_capacity (sortQueue st.task_queue) _ hin
  cases hpg : processGo (sortQueue st.task_queue) { st with task_queue := sortQueue st.task_queue } with
  | mk st2 removed =>
    rw [hpg] at h2
    intro n hn
    refine h2 n ?_
    simpa [processTaskQueue, hpg] using hn

theorem submitTask_capacity (st : SchedState) (t : InferenceTask)
    (h : nodesWithinCapacity st) : nodesWithinCapacity (submitTask st t).2 := by
  unfold submitTask
  split
  · exact h
  · exact fun n hn => h n hn

theorem completeTask_capacity (st : SchedState) (tid : String)
    (h : nodesWithinCapacity st) : nodesWithinCapacity (completeTask st tid) := by
  unfold completeTask
  cases lookupA st.running_tasks tid with
  | none => exact h
  | some _ =>
    cases lookupA st.task_assignments tid with
    | none => exact fun n hn => h n hn
    | some nid => exact fun n hn => decFirst_capacity st.nodes h n hn

theorem runOps_capacity (ops : List SchedOp) :
    ∀ (st : SchedState), nodesWithinCapacity st → nodesWithinCapacity (runOps st ops) := by
  induction ops with
  | nil => intro st h; exact h
  | cons op rest ih =>
    intro st h
    have hstep : nodesWithinCapacity (applyOp st op) := by
      cases op with
      | submit t => exact submitTask_capacity st t h
      | tick => exact processTaskQueue_capacity st h
      | complete tid => exact completeTask_capacity st tid h
    exact ih (applyOp st op) hstep

/-- C1: starting from any scheduler state whose nodes respect their
capacity, every sequence of scheduler operations (task submission, queue
processing and assignment, task completion) preserves
`current_tasks ≤ max_concurrent_tasks` for every node. Assignment only
happens to a node that `_node_meets_requirements` just confirmed has
`current_tasks < max_concurrent_tasks`, and the single-threaded asyncio
loop never suspends between that check and the increment, so each
operation is one atomic step of the model. -/
theorem capacity_invariant_preserved (st : SchedState) (ops : List SchedOp)
    (h : nodesWithinCapacity st) : nodesWithinCapacity (runOps st ops) :=
  runOps_capacity ops st h

/-- A CPU-only one-slot node used by the concrete scheduler runs. -/
def wNode : AgentNode :=
  { id := "a", streaming := false,
    compute_resources :=
      { cpu_cores := 4, total_ram_gb := 8, available_ram_gb := 8,
        has_gpu := false, gpu_devices := [], gpu_total_memory_gb := 0 },
    supported_models := [], max_concurrent_tasks := 1, current_tasks := 0 }

/-- A CPU-only task compatible with `wNode`. -/
def wTask : InferenceTask :=
  { id := "t1", model := "auto", task_type := "text-generation",
    requirements :=
      { requires_gpu := false, min_ram_gb := 1, min_gpu_memory_gb := 0,
        min_compute_capability := none, preferred_models := [],
        max_duration_seconds := 300 },
    priority := .normal, created_at := 0 }

theorem capacity_invariant_preserved_witness :
    nodesWithinCapacity ⟨[wNode], [], [], []⟩ ∧
    nodesWithinCapacity
      (runOps ⟨[wNode], [], [], []⟩ [.submit wTask, .tick, .complete "t1"]) :=
  ⟨by decide,
   capacity_invariant_preserved ⟨[wNode], [], [], []⟩
     [.submit wTask, .tick, .complete "t1"] (by decide)⟩

/-- A GPU node whose only task slot is occupied
(`current_tasks = max_concurrent_tasks = 1`). -/
def cexGpuNode : AgentNode :=
  { id := "g1", streaming := false,
    compute_resources :=
      { cpu_cores := 8, total_ram_gb := 16, available_ram_gb := 16,
        has_gpu := true, gpu_devices := [⟨16, 0, some 7⟩],
        gpu_total_memory_gb := 16 },
    supported_models := [], max_concurrent_tasks := 1, current_tasks := 1 }

/-- A GPU-requiring task with otherwise minimal requirements. -/
def cexGpuTask : InferenceTask :=
  { id := "t9", model := "auto", task_type := "text-generation",
    requirements :=
      { requires_gpu := true, min_ram_gb := 1, min_gpu_memory_gb := 0,
        min_compute_capability := none, preferred_models := [],
        max_duration_seconds := 300 },
    priority := .normal, created_at := 0 }

/-- C2 counterexample: with a single registered GPU node that is merely at
full load, `submit_task` rejects a GPU task even though the node satisfies
every load-independent hard constraint — so the feasibility check is not
independent of the nodes' current load. -/
theorem submit_reject_depends_on_load :
    (submitTask ⟨[cexGpuNode], [], [], []⟩ cexGpuTask).1 = false ∧
    (submitTask ⟨[cexGpuNode], [], [], []⟩ cexGpuTask).2 = ⟨[cexGpuNode], [], [], []⟩ ∧
    nodeMeetsRequirements { cexGpuNode with current_tasks := 0 } cexGpuTask.requirements = true := by
  decide

/-- C2 (amended): `submit_task` rejects exactly when no currently-registered
active node passes the full hard filter of `_node_meets_requirements`,
including the current-load check; a rejected task never enters the queue
(the state is unchanged), and in particular a `requires_gpu` task is
rejected whenever no registered node has a GPU. -/
theorem submit_reject_iff_no_suitable (st : SchedState) (task : InferenceTask) :
    ((submitTask st task).1 = false ↔ findSuitableNodes st.nodes task.requirements = []) ∧
    ((submitTask st task).1 = false → (submitTask st task).2 = st) ∧
    (task.requirements.requires_gpu = true →
      (∀ n ∈ st.nodes, n.compute_resources.has_gpu = false) →
      (submitTask st task).1 = false ∧ (submitTask st task).2 = st) := by
  refine ⟨⟨?_, ?_⟩, ?_, ?_⟩
  · intro hf
    unfold submitTask at hf
    split at hf
    · exact List.isEmpty_iff.mp (by assumption)
    · simp at hf
  · intro hnil
    unfold submitTask
    rw [if_pos (List.isEmpty_iff.mpr hnil)]
  · intro hf
    unfold submitTask at hf ⊢
    split at hf
    · rw [if_pos (by assumption)]
    · simp at hf
  · intro hgpu hnone
    have hnil : findSuitableNodes st.nodes task.requirements = [] := by
      unfold findSuitableNodes
      rw [List.filter_eq_nil_iff]
      intro n hn
      have hg := hnone n hn
      simp [nodeMeetsRequirements, hgpu, hg]
    unfold submitTask
    rw [if_pos (List.isEmpty_iff.mpr hnil)]
    exact ⟨rfl, rfl⟩

/-- A GPU-requiring task submitted against the CPU-only `wNode`. -/
def wGpuTask : InferenceTask :=
  { id := "t2", model := "auto", task_type := "text-generation",
    requirements :=
      { requires_gpu := true, min_ram_gb := 1, min_gpu_memory_gb := 0,
        min_compute_capability := none, preferred_models := [],
        max_duration_seconds := 300 },
    priority := .normal, created_at := 0 }

theorem submit_reject_iff_no_suitable_witness :
    (submitTask ⟨[wNode], [], [], []⟩ wGpuTask).1 = false ∧
    (submitTask ⟨[wNode], [], [], []⟩ wGpuTask).2 = ⟨[wNode], [], [], []⟩ :=
  (submit_reject_iff_no_suitable ⟨[wNode], [], [], []⟩ wGpuTask).2.2
    (by decide) (by decide)

/-- A lowest-priority task. -/
def cexLowTask : InferenceTask :=
  { id := "tl", model := "auto", task_type := "text-generation",
    requirements :=
      { requires_gpu := false, min_ram_gb := 1, min_gpu_memory_gb := 0,
        min_compute_capability := none, preferred_models := [],
        max_duration_seconds := 300 },
    priority := .low, created_at := 0 }

/-- An urgent task created at the same instant as `cexLowTask`. -/
def cexUrgentTask : InferenceTask :=
  { id := "tu", model := "auto", task_type := "text-generation",
    requirements :=
      { requires_gpu := false, min_ram_gb := 1, min_gpu_memory_gb := 0,
        min_compute_capability := none, preferred_models := [],
        max_duration_seconds := 300 },
    priority := .urgent, created_at := 0 }

/-- C3: `_process_task_queue` sorts by the tuple
`(t.priority.value, t.created_at)` ascending, and `priority.value` is the
str-enum string, so the queue is ordered by lexicographic string order:
an urgent task ("urgent") is attempted after a low-priority one ("low")
at the same `created_at` — the opposite of priority-descending order. -/
theorem queue_attempts_low_before_urgent :
    sortQueue [cexUrgentTask, cexLowTask] = [cexLowTask, cexUrgentTask] ∧
    cexUrgentTask.priority = TaskPriority.urgent ∧
    cexLowTask.priority = TaskPriority.low ∧
    cexUrgentTask.created_at = cexLowTask.created_at := by
  decide

end GpuSched

namespace Reg

/-- The Redis hash `node:{id}` exactly as `RedisRegistry.register_node`
writes it; `capabilities` is the JSON string stored by `json.dumps`,
timestamps are seconds. -/
structure NodeRecord where
  id : String
  status : String
  capabilities : String
  last_heartbeat : Nat
  registered_at : Nat
  tasks_completed : Nat
  tasks_failed : Nat
deriving Repr, DecidableEq

/-- The Redis hash `task:{id}` as written by `create_task` and mutated by
`update_task_status`; `result`/`completed_at` model fields that are
present only once written. -/
structure TaskRecord where
  id : String
  status : String
  model : String
  input_data : String
  node_id : String
  created_at : Nat
  updated_at : Nat
  priority : Int
  result : Option String
  completed_at : Option Nat
deriving Repr, DecidableEq

/-- The Redis keys used by `RedisRegistry`: node and task hashes as
association lists, sets as key lists, the `pending_tasks` zset as
(member, score) pairs. -/
structure Store where
  nodes : List (String × NodeRecord)
  activeNodes : List String
  tasks : List (String × TaskRecord)
  pendingTasks : List (String × Int)
  runningTasks : List String
  completedTasks : List String
  failedTasks : List String
  allTasks : List String
deriving Repr, DecidableEq

/-- Hash lookup (Redis `hgetall` on a key that either exists or not). -/
def lookupA {α : Type} (l : List (String × α)) (k : String) : Option α :=
  (l.find? (fun p => p.1 == k)).map (fun p => p.2)

/-- Hash write (`hset` with a full mapping): overwrite the entry if the
key exists, else append it (hashes hold at most one entry per key). -/
def insertA {α : Type} : List (String × α) → String → α → List (String × α)
  | [], k, v => [(k, v)]
  | p :: rest, k, v =>
    if p.1 == k then (k, v) :: rest else p :: insertA rest k v

/-- Redis `sadd`. -/
def sadd (s : List String) (x : String) : List String :=
  if x ∈ s then s else s ++ [x]

/-- Redis `srem`. -/
def srem (s : List String) (x : String) : List String :=
  s.filter (fun y => y ≠ x)

/-- Redis `zadd` on `pending_tasks`: update the member's score or add it. -/
def zadd (z : List (String × Int)) (x : String) (score : Int) : List (String × Int) :=
  insertA z x score

/-- Redis `zrem`. -/
def zrem (z : List (String × Int)) (x : String) : List (String × Int) :=
  z.filter (fun p => p.1 ≠ x)

/-- The node object handed to `register_node` (`id`, `status` and the
already-serialized capability snapshot are the fields it reads). -/
structure NodeInput where
  id : String
  status : String
  capabilities : String
deriving Repr, DecidableEq

/-- `RedisRegistry.register_node`: upsert the node hash with the supplied
status and capabilities, fresh `last_heartbeat`/`registered_at`, zeroed
counters, and `sadd` to `active_nodes`. (The 24h key expiration is the
sweep window, irrelevant to the claims settled here.) -/
def registerNode (st : Store) (now : Nat) (n : NodeInput) : Store :=
  let r : NodeRecord :=
    { id := n.id, status := n.status, capabilities := n.capabilities,
      last_heartbeat := now, registered_at := now,
      tasks_completed := 0, tasks_failed := 0 }
  { st with
      nodes := insertA st.nodes n.id r,
      activeNodes := sadd st.activeNodes n.id }

/-- `RedisRegistry.get_node`: return the hash, forcing status `offline`
(both in the returned snapshot and in the store) when the heartbeat is
more than 30 seconds old. -/
def getNode (st : Store) (now : Nat) (nid : String) : Option NodeRecord × Store :=
  match lookupA st.nodes nid with
  | none => (none, st)
  | some r =>
    if now - r.last_heartbeat > 30 then
      let r2 := { r with status := "offline" }
      (some r2, { st with nodes := insertA st.nodes nid r2 })
    else
      (some r, st)

/-- The loop body of `RedisRegistry.get_all_nodes` over the snapshot of
`active_nodes`; ids whose hash is gone are dropped from the set. -/
def getAllNodesGo (now : Nat) : List String → Store → List NodeRecord × Store
  | [], st => ([], st)
  | nid :: rest, st =>
    match getNode st now nid with
    | (some r, st2) =>
      let p := getAllNodesGo now rest st2
      (r :: p.1, p.2)
    | (none, st2) =>
      getAllNodesGo now rest { st2 with activeNodes := srem st2.activeNodes nid }

/-- `RedisRegistry.get_all_nodes`. -/
def getAllNodes (st : Store) (now : Nat) : List NodeRecord × Store :=
  getAllNodesGo now st.activeNodes st

/-- The task object handed to `create_task`. -/
structure TaskInputRec where
  id : String
  status : String
  model : String
  input_data : String
  node_id : String
  priority : Int
deriving Repr, DecidableEq

/-- `RedisRegistry.create_task`: write the task hash, `zadd` to
`pending_tasks` when the status is `pending`, `sadd` to `all_tasks`. -/
def createTask (st : Store) (now : Nat) (t : TaskInputRec) : Store :=
  let r : TaskRecord :=
    { id := t.id, status := t.status, model := t.model,
      input_data := t.input_data, node_id := t.node_id,
      created_at := now, updated_at := now, priority := t.priority,
      result := none, completed_at := none }
  let st1 := { st with tasks := insertA st.tasks t.id r }
  let st2 :=
    if t.status == "pending" then
      { st1 with pendingTasks := zadd st1.pendingTasks t.id t.priority }
    else st1
  { st2 with allTasks := sadd st2.allTasks t.id }

/-- `hincrby node:{id} tasks_completed 1` on an existing node hash (Redis
would create a partial hash for a missing node; no settled claim reaches
that case). -/
def bumpCompleted (nodes : List (String × NodeRecord)) (nid : String) :
    List (String × NodeRecord) :=
  nodes.map (fun p =>
    if p.1 == nid then (p.1, { p.2 with tasks_completed := p.2.tasks_completed + 1 }) else p)

/-- `hincrby node:{id} tasks_failed 1`, same caveat as `bumpCompleted`. -/
def bumpFailed (nodes : List (String × NodeRecord)) (nid : String) :
    List (String × NodeRecord) :=
  nodes.map (fun p =>
    if p.1 == nid then (p.1, { p.2 with tasks_failed := p.2.tasks_failed + 1 }) else p)

/-- The `update_data` mapping of `RedisRegistry.update_task_status`
applied to the existing task hash: always `status`/`updated_at`,
`node_id` only if truthy, `result` only if not `None`, `completed_at`
only for status `completed`. -/
def applyUpdate (r : TaskRecord) (now : Nat) (status nodeId : String)
    (result : Option String) : TaskRecord :=
  let r1 := { r with status := status, updated_at := now }
  let r2 := if nodeId ≠ "" then { r1 with node_id := nodeId } else r1
  let r3 := match result with
            | some s => { r2 with result := some s }
            | none => r2
  if status == "completed" then { r3 with completed_at := some now } else r3

/-- The queue moves of `update_task_status` ("Move task between queues
based on status"): they touch the status sets and the node counters,
never the task hash itself. -/
def moveQueues (st : Store) (tid status nodeId : String) : Store :=
  if status == "running" then
    { st with
        pendingTasks := zrem st.pendingTasks tid,
        runningTasks := sadd st.runningTasks tid }
  else if status == "completed" then
    let s := { st with
                 runningTasks := srem st.runningTasks tid,
                 completedTasks := sadd st.completedTasks tid }
    if nodeId ≠ "" then { s with nodes := bumpCompleted s.nodes nodeId } else s
  else if status == "failed" then
    let s := { st with
                 runningTasks := srem st.runningTasks tid,
                 failedTasks := sadd st.failedTasks tid }
    if nodeId ≠ "" then { s with nodes := bumpFailed s.nodes nodeId } else s
  else st

/-- `RedisRegistry.update_task_status`. `nodeId = ""` models Python's
falsy `None`/empty default for the optional argument; `result = none`
models `result is None`. Returns `False` with the store untouched when
the task hash does not exist; otherwise writes the updated hash and moves
the id between the status queues. -/
def updateTaskStatus (st : Store) (now : Nat) (tid : String) (status : String)
    (nodeId : String) (result : Option String) : Bool × Store :=
  match lookupA st.tasks tid with
  | none => (false, st)
  | some r =>
    let st1 := { st with tasks := insertA st.tasks tid (applyUpdate r now status nodeId result) }
    (true, moveQueues st1 tid status nodeId)

/-- `RedisRegistry.get_task` (the JSON re-parse of `input_data`/`result`
is the identity here since the fields are kept as strings). -/
def getTask (st : Store) (tid : String) : Option TaskRecord :=
  lookupA st.tasks tid

/-- `pending_tasks` sorted ascending by `(score, member)` as `zrange`
returns it. -/
def zrangeAll (z : List (String × Int)) : List (String × Int) :=
  z.mergeSort (fun a b =>
    a.2 < b.2 || (a.2 == b.2 && !GpuSched.strLtB b.1 a.1))

/-- `RedisRegistry.get_tasks_by_status`: pick the id list for the status
and keep the records that still exist. -/
def getTasksByStatus (st : Store) (status : String) : List TaskRecord :=
  let ids :=
    if status == "pending" then (zrangeAll st.pendingTasks).map (fun p => p.1)
    else if status == "running" then st.runningTasks
    else if status == "completed" then st.completedTasks
    else if status == "failed" then st.failedTasks
    else []
  ids.filterMap (fun tid => getTask st tid)

/-- `TaskScheduler._get_available_nodes`: nodes whose effective status is
`online` (after `get_node`'s lazy liveness override) and that have fewer
than 3 currently-running task records assigned. -/
def getAvailableNodes (st : Store) (now : Nat) : List NodeRecord × Store :=
  let p := getAllNodes st now
  let runningRecs := getTasksByStatus p.2 "running"
  (p.1.filter (fun n =>
     n.status == "online" &&
     decide ((runningRecs.filter (fun t => t.node_id == n.id)).length < 3)),
   p.2)

/-- The per-task body of `TaskScheduler._check_running_tasks`: a running
task whose `created_at` is more than 300 seconds old is failed with
error "Task timeout". -/
def checkRunningTasksGo (now : Nat) : List TaskRecord → Store → Store
  | [], st => st
  | t :: rest, st =>
    let st2 :=
      if now - t.created_at > 300 then
        (updateTaskStatus st now t.id "failed" t.node_id (some "Task timeout")).2
      else st
    checkRunningTasksGo now rest st2

/-- `TaskScheduler._check_running_tasks` over the snapshot of running
tasks. -/
def checkRunningTasks (st : Store) (now : Nat) : Store :=
  checkRunningTasksGo now (getTasksByStatus st "running") st

/-- `TaskScheduler.cancel_task`: only tasks whose status is `pending` are
cancelled, and cancellation records status `failed` with error
"Task cancelled by user"; anything else returns False unchanged. -/
def cancelTask (st : Store) (now : Nat) (tid : String) : Bool × Store :=
  match getTask st tid with
  | none => (false, st)
  | some t =>
    if t.status == "pending" then
      (true, (updateTaskStatus st now tid "failed" "" (some "Task cancelled by user")).2)
    else
      (false, st)

theorem lookupA_insertA_self {α : Type} :
    ∀ (l : List (String × α)) (k : String) (v : α),
      lookupA (insertA l k v) k = some v := by
  intro l k v
  induction l with
  | nil => simp [insertA, lookupA, List.find?]
  | cons p rest ih =>
    unfold insertA
    by_cases hp : (p.1 == k) = true
    · rw [if_pos hp]
      simp [lookupA, List.find?]
    · rw [if_neg hp]
      unfold lookupA at ih ⊢
      simp only [List.find?, hp]
      exact ih

theorem lookupA_insertA_other {α : Type} {k k2 : String} (hne : k2 ≠ k) :
    ∀ (l : List (String × α)) (v : α),
      lookupA (insertA l k v) k2 = lookupA l k2 := by
  intro l v
  induction l with
  | nil =>
    simp only [insertA, lookupA, List.find?]
    have : (k == k2) = false := by
      simp [beq_iff_eq]
      exact fun h => hne h.symm
    simp [this]
  | cons p rest ih =>
    unfold insertA
    by_cases hp : (p.1 == k) = true
    · rw [if_pos hp]
      have hpk : p.1 = k := beq_iff_eq.mp hp
      have h1 : (k == k2) = false := by
        simp [beq_iff_eq]
        exact fun h => hne h.symm
      have h2 : (p.1 == k2) = false := by
        rw [hpk]
        exact h1
      unfold lookupA
      simp only [List.find?, h1, h2]
    · rw [if_neg hp]
      unfold lookupA at ih ⊢
      simp only [List.find?]
      by_cases hq : (p.1 == k2) = true
      · simp [hq]
      · simp only [hq]
        exact ih

theorem insertA_insertA_self {α : Type} :
    ∀ (l : List (String × α)) (k : String) (v v2 : α),
      insertA (insertA l k v) k v2 = insertA l k v2 := by
  intro l k v v2
  induction l with
  | nil => simp [insertA]
  | cons p rest ih =>
    by_cases hp : (p.1 == k) = true
    · simp [insertA, hp]
    · simp [insertA, hp, ih]

theorem sadd_sadd (s : List String) (x : String) :
    sadd (sadd s x) x = sadd s x := by
  by_cases h : x ∈ s
  · simp [sadd, h]
  · simp [sadd, h, List.mem_append]

theorem applyUpdate_status (r : TaskRecord) (now : Nat) (status nodeId : String)
    (result : Option String) :
    (applyUpdate r now status nodeId result).status = status := by
  unfold applyUpdate
  repeat' split
  all_goals rfl

theorem applyUpdate_result_some (r : TaskRecord) (now : Nat) (status nodeId : String)
    (x : String) :
    (applyUpdate r now status nodeId (some x)).result = some x := by
  unfold applyUpdate
  repeat' split
  all_goals simp_all

theorem moveQueues_tasks (st : Store) (tid status nodeId : String) :
    (moveQueues st tid status nodeId).tasks = st.tasks := by
  unfold moveQueues
  repeat' split
  all_goals rfl

theorem update_lookup_self (st : Store) (now : Nat) (tid status nodeId : String)
    (result : Option String) (r : TaskRecord) (h : lookupA st.tasks tid = some r) :
    (updateTaskStatus st now tid status nodeId result).1 = true ∧
    lookupA (updateTaskStatus st now tid status nodeId result).2.tasks tid =
      some (applyUpdate r now status nodeId result) := by
  unfold updateTaskStatus
  rw [h]
  refine ⟨rfl, ?_⟩
  rw [moveQueues_tasks]
  exact lookupA_insertA_self ..

theorem update_lookup_other (st : Store) (now : Nat) (k tid status nodeId : String)
    (result : Option String) (hne : tid ≠ k) :
    lookupA (updateTaskStatus st now k status nodeId result).2.tasks tid =
      lookupA st.tasks tid := by
  unfold updateTaskStatus
  cases hk : lookupA st.tasks k with
  | none => rfl
  | some r =>
    simp only []
    rw [moveQueues_tasks]
    exact lookupA_insertA_other hne ..

/-- C10: updating the status of a task id that has no stored record
returns False and leaves the entire store unchanged — no task record,
queue membership, or node counter is touched. -/
theorem update_missing_task_is_noop (st : Store) (now : Nat)
    (tid status nodeId : String) (result : Option String)
    (h : lookupA st.tasks tid = none) :
    updateTaskStatus st now tid status nodeId result = (false, st) := by
  unfold updateTaskStatus
  rw [h]

/-- The empty Redis store. -/
def emptyStore : Store :=
  { nodes := [], activeNodes := [], tasks := [], pendingTasks := [],
    runningTasks := [], completedTasks := [], failedTasks := [], allTasks := [] }

theorem update_missing_task_is_noop_witness :
    updateTaskStatus emptyStore 5 "t1" "running" "" none = (false, emptyStore) :=
  update_missing_task_is_noop emptyStore 5 "t1" "running" "" none rfl

/-- A task record already in the terminal `completed` state. -/
def cexDoneTask : TaskRecord :=
  { id := "t1", status := "completed", model := "m", input_data := "in",
    node_id := "n1", created_at := 0, updated_at := 10, priority := 1,
    result := some "out", completed_at := some 10 }

/-- A store holding only the completed task `t1`. -/
def cexDoneStore : Store :=
  { nodes := [], activeNodes := [], tasks := [("t1", cexDoneTask)],
    pendingTasks := [], runningTasks := [], completedTasks := ["t1"],
    failedTasks := [], allTasks := ["t1"] }

/-- C7 counterexample: `update_task_status` transitions the terminal
`completed` task back to `running` and reports success — no lifecycle
edge is enforced. -/
theorem update_reopens_completed_task :
    (updateTaskStatus cexDoneStore 20 "t1" "running" "" none).1 = true ∧
    ((lookupA (updateTaskStatus cexDoneStore 20 "t1" "running" "" none).2.tasks "t1").map
      (fun u => u.status)) = some "running" ∧
    cexDoneTask.status = "completed" := by
  decide

/-- C7 (amended): `update_task_status` performs no lifecycle validation:
for every existing task, whatever its current status (terminal ones
included), it returns True and overwrites the stored status with exactly
the requested string. -/
theorem update_sets_any_status (st : Store) (now : Nat)
    (tid status nodeId : String) (result : Option String) (r : TaskRecord)
    (h : lookupA st.tasks tid = some r) :
    (updateTaskStatus st now tid status nodeId result).1 = true ∧
    (lookupA (updateTaskStatus st now tid status nodeId result).2.tasks tid).map
      (fun u => u.status) = some status := by
  obtain ⟨h1, h2⟩ := update_lookup_self st now tid status nodeId result r h
  exact ⟨h1, by rw [h2]; simp [applyUpdate_status]⟩

theorem update_sets_any_status_witness :
    (updateTaskStatus cexDoneStore 20 "t1" "cancelled" "" none).1 = true ∧
    (lookupA (updateTaskStatus cexDoneStore 20 "t1" "cancelled" "" none).2.tasks "t1").map
      (fun u => u.status) = some "cancelled" :=
  update_sets_any_status cexDoneStore 20 "t1" "cancelled" "" none cexDoneTask rfl

/-- C9 counterexample: `register_node` stores the supplied status verbatim
instead of forcing `online`: a node registered with status `offline` is
read back as `offline` immediately after registration. -/
theorem register_does_not_force_online :
    ((getNode (registerNode emptyStore 100 ⟨"n1", "offline", "caps"⟩) 100 "n1").1).map
      (fun r => r.status) = some "offline" := by
  decide

/-- C9 (amended): registering a node and immediately reading it back by
its id succeeds and returns exactly the registered snapshot — the
supplied id, status (as supplied, not forced to `online`) and capability
snapshot, with `last_heartbeat`/`registered_at` reset to the registration
time and both counters zeroed; repeated registration with the same input
is idempotent (a capability refresh). -/
theorem register_get_roundtrip (st : Store) (now : Nat) (n : NodeInput) :
    (getNode (registerNode st now n) now n.id).1 =
      some { id := n.id, status := n.status, capabilities := n.capabilities,
             last_heartbeat := now, registered_at := now,
             tasks_completed := 0, tasks_failed := 0 } ∧
    registerNode (registerNode st now n) now n = registerNode st now n := by
  constructor
  · unfold getNode registerNode
    simp only []
    rw [lookupA_insertA_self]
    simp
  · unfold registerNode
    simp only []
    rw [insertA_insertA_self, sadd_sadd]

/-- A pending task record. -/
def cexPendingTask : TaskRecord :=
  { id := "t1", status := "pending", model := "m", input_data := "in",
    node_id := "", created_at := 0, updated_at := 0, priority := 1,
    result := none, completed_at := none }

/-- A store holding only the pending task `t1`. -/
def cexPendingStore : Store :=
  { nodes := [], activeNodes := [], tasks := [("t1", cexPendingTask)],
    pendingTasks := [("t1", 1)], runningTasks := [], completedTasks := [],
    failedTasks := [], allTasks := ["t1"] }

/-- A running task record. -/
def cexRunningTask : TaskRecord :=
  { id := "t2", status := "running", model := "m", input_data := "in",
    node_id := "n1", created_at := 0, updated_at := 0, priority := 1,
    result := none, completed_at := none }

/-- A store holding only the running task `t2`. -/
def cexRunningStore : Store :=
  { nodes := [], activeNodes := [], tasks := [("t2", cexRunningTask)],
    pendingTasks := [], runningTasks := ["t2"], completedTasks := [],
    failedTasks := [], allTasks := ["t2"] }

/-- C8 counterexample: cancelling a pending task succeeds but records
status `failed` (with error "Task cancelled by user"), never `cancelled`;
and cancelling a running task returns False and leaves the store
unchanged instead of marking it cancelled locally. -/
theorem cancel_pending_failed_running_refused :
    (cancelTask cexPendingStore 5 "t1").1 = true ∧
    (lookupA (cancelTask cexPendingStore 5 "t1").2.tasks "t1").map
      (fun u => u.status) = some "failed" ∧
    cancelTask cexRunningStore 5 "t2" = (false, cexRunningStore) := by
  decide

/-- C8 (amended): `cancel_task` succeeds only for tasks whose status is
`pending`, transitioning them to `failed` with error
"Task cancelled by user"; for a task in any other status (running
included) it returns False and leaves the store unchanged. -/
theorem cancel_only_pending (st : Store) (now : Nat) (tid : String)
    (t : TaskRecord) (h : lookupA st.tasks tid = some t) :
    (t.status = "pending" →
      (cancelTask st now tid).1 = true ∧
      (lookupA (cancelTask st now tid).2.tasks tid).map
        (fun u => u.status) = some "failed" ∧
      (lookupA (cancelTask st now tid).2.tasks tid).bind
        (fun u => u.result) = some "Task cancelled by user") ∧
    (t.status ≠ "pending" → cancelTask st now tid = (false, st)) := by
  constructor
  · intro hp
    obtain ⟨h1, h2⟩ :=
      update_lookup_self st now tid "failed" "" (some "Task cancelled by user") t h
    have hc : cancelTask st now tid =
        (true, (updateTaskStatus st now tid "failed" "" (some "Task cancelled by user")).2) := by
      unfold cancelTask getTask
      rw [h]
      simp only []
      rw [if_pos (by simp [hp])]
    rw [hc]
    refine ⟨rfl, ?_, ?_⟩
    · dsimp only
      rw [h2]
      simp [applyUpdate_status]
    · dsimp only
      rw [h2]
      simp [applyUpdate_result_some]
  · intro hp
    unfold cancelTask getTask
    rw [h]
    simp only []
    rw [if_neg (by simp [hp])]

theorem cancel_only_pending_witness :
    (cancelTask cexPendingStore 5 "t1").1 = true ∧
    (lookupA (cancelTask cexPendingStore 5 "t1").2.tasks "t1").map
      (fun u => u.status) = some "failed" ∧
    (lookupA (cancelTask cexPendingStore 5 "t1").2.tasks "t1").bind
      (fun u => u.result) = some "Task cancelled by user" :=
  (cancel_only_pending cexPendingStore 5 "t1" cexPendingTask rfl).1 rfl

theorem insertA_forall {α : Type} {P : String × α → Prop} :
    ∀ (l : List (String × α)) (k : String) (v : α),
      (∀ p ∈ l, P p) → P (k, v) → ∀ q ∈ insertA l k v, P q := by
  intro l k v
  induction l with
  | nil =>
    intro _ hkv q hq
    simp only [insertA, List.mem_singleton] at hq
    exact hq ▸ hkv
  | cons p rest ih =>
    intro hl hkv q hq
    unfold insertA at hq
    by_cases hp : (p.1 == k) = true
    · rw [if_pos hp] at hq
      rcases List.mem_cons.mp hq with rfl | hmem
      · exact hkv
      · exact hl q (List.mem_cons_of_mem _ hmem)
    · rw [if_neg hp] at hq
      rcases List.mem_cons.mp hq with rfl | hmem
      · exact hl q (List.mem_cons_self ..)
      · exact ih (fun z hz => hl z (List.mem_cons_of_mem _ hz)) hkv q hmem

theorem lookupA_mem {α : Type} {l : List (String × α)} {k : String} {v : α}
    (h : lookupA l k = some v) : (k, v) ∈ l := by
  unfold lookupA at h
  cases hf : l.find? (fun p => p.1 == k) with
  | none => rw [hf] at h; simp at h
  | some p =>
    rw [hf] at h
    simp only [Option.map_some', Option.some_inj] at h
    have hmem := List.mem_of_find?_eq_some hf
    have hpred := List.find?_some hf
    have hk : p.1 = k := beq_iff_eq.mp hpred
    have hpv : p = (k, v) := by
      obtain ⟨a, b⟩ := p
      simp only at hk h
      rw [hk, h]
    exact hpv ▸ hmem

theorem getAllNodesGo_stale {now hb : Nat} {nid : String}
    (hstale : now - hb > 30) :
    ∀ (ids : List String) (st : Store),
      (∀ p ∈ st.nodes, p.2.id = p.1) →
      (∀ r, lookupA st.nodes nid = some r → r.last_heartbeat = hb) →
      ∀ n ∈ (getAllNodesGo now ids st).1, n.id = nid → n.status = "offline" := by
  intro ids
  induction ids with
  | nil => intro st _ _ n hn; exact absurd hn (by simp [getAllNodesGo])
  | cons k rest ih =>
    intro st hwf hhb n hn hid
    cases hk : lookupA st.nodes k with
    | none =>
      simp only [getAllNodesGo, getNode, hk] at hn
      exact ih { st with activeNodes := srem st.activeNodes k } hwf hhb n hn hid
    | some r =>
      have hrid : r.id = k := hwf (k, r) (lookupA_mem hk)
      by_cases hfresh : now - r.last_heartbeat > 30
      · simp only [getAllNodesGo, getNode, hk, if_pos hfresh] at hn
        rcases List.mem_cons.mp hn with rfl | hmem
        · rfl
        · refine ih { st with nodes := insertA st.nodes k { r with status := "offline" } }
            ?_ ?_ n hmem hid
          · exact insertA_forall st.nodes k { r with status := "offline" } hwf hrid
          · intro r2 h2
            by_cases hkn : nid = k
            · subst hkn
              rw [lookupA_insertA_self] at h2
              have : r2 = { r with status := "offline" } := Option.some_inj.mp h2.symm
              rw [this]
              exact hhb r hk
            · rw [lookupA_insertA_other hkn] at h2
              exact hhb r2 h2
      · simp only [getAllNodesGo, getNode, hk, if_neg hfresh] at hn
        rcases List.mem_cons.mp hn with rfl | hmem
        · exfalso
          have hkn : k = nid := hrid ▸ hid
          subst hkn
          exact hfresh (hhb n hk ▸ hstale)
        · exact ih st hwf hhb n hmem hid

/-- C6: a stored node whose `last_heartbeat` is more than 30 seconds old
at read time is returned by `get_node` with status `offline` regardless
of the stored status, and no node with that id appears in the
available-node listing the scheduler uses. -/
theorem stale_node_offline_and_excluded (st : Store) (now : Nat) (nid : String)
    (r : NodeRecord) (hwf : ∀ p ∈ st.nodes, p.2.id = p.1)
    (hr : lookupA st.nodes nid = some r)
    (hstale : now - r.last_heartbeat > 30) :
    (getNode st now nid).1 = some { r with status := "offline" } ∧
    ∀ n ∈ (getAvailableNodes st now).1, n.id ≠ nid := by
  constructor
  · simp [getNode, hr, hstale]
  · intro n hn hid
    simp only [getAvailableNodes, getAllNodes] at hn
    obtain ⟨hmem, hpred⟩ := List.mem_filter.mp hn
    have hhb : ∀ r2, lookupA st.nodes nid = some r2 → r2.last_heartbeat = r.last_heartbeat := by
      intro r2 h2
      rw [hr] at h2
      rw [Option.some_inj.mp h2.symm]
    have hoff := getAllNodesGo_stale hstale st.activeNodes st hwf hhb n hmem hid
    rw [Bool.and_eq_true] at hpred
    have hon : (n.status == "online") = true := hpred.1
    rw [hoff] at hon
    exact absurd (beq_iff_eq.mp hon) (by decide)

/-- A node record with a long-expired heartbeat but stale status
`online`. -/
def cexStaleNode : NodeRecord :=
  { id := "n1", status := "online", capabilities := "caps",
    last_heartbeat := 0, registered_at := 0,
    tasks_completed := 0, tasks_failed := 0 }

/-- A store holding only the stale node `n1`. -/
def cexStaleStore : Store :=
  { nodes := [("n1", cexStaleNode)], activeNodes := ["n1"], tasks := [],
    pendingTasks := [], runningTasks := [], completedTasks := [],
    failedTasks := [], allTasks := [] }

theorem stale_node_offline_and_excluded_witness :
    (getNode cexStaleStore 100 "n1").1 = some { cexStaleNode with status := "offline" } :=
  (stale_node_offline_and_excluded cexStaleStore 100 "n1" cexStaleNode
    (by decide) rfl (by decide)).1

theorem checkGo_preserves_timeout {now : Nat} {tid : String} :
    ∀ (l : List TaskRecord) (st : Store),
      (∃ u, lookupA st.tasks tid = some u ∧
        u.status = "failed" ∧ u.result = some "Task timeout") →
      ∃ u, lookupA (checkRunningTasksGo now l st).tasks tid = some u ∧
        u.status = "failed" ∧ u.result = some "Task timeout" := by
  intro l
  induction l with
  | nil => intro st h; exact h
  | cons x rest ih =>
    intro st h
    obtain ⟨u, hu, hus, hur⟩ := h
    simp only [checkRunningTasksGo]
    by_cases hfire : now - x.created_at > 300
    · rw [if_pos hfire]
      by_cases hxid : tid = x.id
      · obtain ⟨_, hself⟩ :=
          update_lookup_self st now x.id "failed" x.node_id (some "Task timeout") u (hxid ▸ hu)
        refine ih _ ⟨applyUpdate u now "failed" x.node_id (some "Task timeout"), ?_,
          applyUpdate_status .., applyUpdate_result_some ..⟩
        rw [hxid]
        exact hself
      · refine ih _ ⟨u, ?_, hus, hur⟩
        rw [update_lookup_other st now x.id tid "failed" x.node_id (some "Task timeout") hxid]
        exact hu
    · rw [if_neg hfire]
      exact ih st ⟨u, hu, hus, hur⟩

theorem checkGo_times_out {now : Nat} {tid : String} :
    ∀ (l : List TaskRecord) (st : Store),
      (∀ u ∈ l, u.id = tid → now - u.created_at > 300) →
      (∃ u ∈ l, u.id = tid) →
      (∃ r0, lookupA st.tasks tid = some r0) →
      ∃ u, lookupA (checkRunningTasksGo now l st).tasks tid = some u ∧
        u.status = "failed" ∧ u.result = some "Task timeout" := by
  intro l
  induction l with
  | nil =>
    intro st _ hex _
    obtain ⟨u, hu, _⟩ := hex
    exact absurd hu (List.not_mem_nil u)
  | cons x rest ih =>
    intro st hall hex hpres
    obtain ⟨r0, hr0⟩ := hpres
    simp only [checkRunningTasksGo]
    by_cases hxid : x.id = tid
    · have hfire := hall x (List.mem_cons_self ..) hxid
      rw [if_pos hfire]
      have hu0 : lookupA st.tasks x.id = some r0 := hxid ▸ hr0
      obtain ⟨_, hself⟩ :=
        update_lookup_self st now x.id "failed" x.node_id (some "Task timeout") r0 hu0
      apply checkGo_preserves_timeout
      refine ⟨applyUpdate r0 now "failed" x.node_id (some "Task timeout"), ?_,
        applyUpdate_status .., applyUpdate_result_some ..⟩
      rw [← hxid]
      exact hself
    · obtain ⟨u, hu, huid⟩ := hex
      have hu2 : u ∈ rest := by
        rcases List.mem_cons.mp hu with rfl | hmem
        · exact absurd huid hxid
        · exact hmem
      by_cases hfire : now - x.created_at > 300
      · rw [if_pos hfire]
        refine ih _ (fun z hz hzid => hall z (List.mem_cons_of_mem _ hz) hzid)
          ⟨u, hu2, huid⟩ ⟨r0, ?_⟩
        rw [update_lookup_other st now x.id tid "failed" x.node_id (some "Task timeout")
          (fun h => hxid h.symm)]
        exact hr0
      · rw [if_neg hfire]
        exact ih st (fun z hz hzid => hall z (List.mem_cons_of_mem _ hz) hzid)
          ⟨u, hu2, huid⟩ ⟨r0, hr0⟩

/-- C4 (amended): `_check_running_tasks` forcibly fails any running task
whose `created_at` (not `started_at`) is more than a fixed 300 seconds in
the past — the per-task `max_duration_seconds` is never consulted (the
store does not even persist it) — recording error "Task timeout"; no
per-node load counter exists or is released, only the node's
`tasks_failed` reporting counter is incremented. -/
theorem check_running_fails_old_tasks (st : Store) (now : Nat) (tid : String)
    (t : TaskRecord)
    (hwf : ∀ p ∈ st.tasks, p.2.id = p.1)
    (hrun : tid ∈ st.runningTasks)
    (ht : lookupA st.tasks tid = some t)
    (hold : now - t.created_at > 300) :
    ∃ u, lookupA (checkRunningTasks st now).tasks tid = some u ∧
      u.status = "failed" ∧ u.result = some "Task timeout" := by
  have hid : t.id = tid := hwf (tid, t) (lookupA_mem ht)
  have hsnap : getTasksByStatus st "running" =
      st.runningTasks.filterMap (fun k => getTask st k) := rfl
  unfold checkRunningTasks
  rw [hsnap]
  apply checkGo_times_out
  · intro u hu huid
    rw [List.mem_filterMap] at hu
    obtain ⟨k, hk, hgk⟩ := hu
    have huk : u.id = k := hwf (k, u) (lookupA_mem hgk)
    have hk2 : k = tid := by rw [← huk, huid]
    subst hk2
    have hut : u = t := by
      have hgk2 : lookupA st.tasks k = some u := hgk
      rw [ht] at hgk2
      exact (Option.some_inj.mp hgk2).symm
    rw [hut]
    exact hold
  · refine ⟨t, ?_, hid⟩
    rw [List.mem_filterMap]
    exact ⟨tid, hrun, ht⟩
  · exact ⟨t, ht⟩

/-- A node record for the timeout counterexample. -/
def cexTimeoutNode : NodeRecord :=
  { id := "n1", status := "online", capabilities := "caps",
    last_heartbeat := 395, registered_at := 0,
    tasks_completed := 0, tasks_failed := 0 }

/-- A running task created 400 seconds before the check. -/
def cexTimeoutTask : TaskRecord :=
  { id := "t3", status := "running", model := "m", input_data := "in",
    node_id := "n1", created_at := 0, updated_at := 10, priority := 1,
    result := none, completed_at := none }

/-- A store with the node `n1` and the running task `t3` assigned to it. -/
def cexTimeoutStore : Store :=
  { nodes := [("n1", cexTimeoutNode)], activeNodes := ["n1"],
    tasks := [("t3", cexTimeoutTask)], pendingTasks := [],
    runningTasks := ["t3"], completedTasks := [], failedTasks := [],
    allTasks := ["t3"] }

/-- C4 counterexample: at `now = 400` the check fails the running task
`t3` from its `created_at` age against the fixed 300s limit (no per-task
`max_duration_seconds` is stored or consulted — a task whose own limit
were the maximum admissible 3600s is failed all the same), and the
assigned node's record changes only by the `tasks_failed` counter: there
is no load field to release. -/
theorem timeout_fires_from_created_at :
    ((lookupA (checkRunningTasks cexTimeoutStore 400).tasks "t3").map
      (fun u => u.status)) = some "failed" ∧
    ((lookupA (checkRunningTasks cexTimeoutStore 400).tasks "t3").bind
      (fun u => u.result)) = some "Task timeout" ∧
    lookupA (checkRunningTasks cexTimeoutStore 400).nodes "n1" =
      some { cexTimeoutNode with tasks_failed := 1 } ∧
    400 - cexTimeoutTask.created_at ≤ 3600 := by
  decide

theorem check_running_fails_old_tasks_witness :
    ∃ u, lookupA (checkRunningTasks cexTimeoutStore 400).tasks "t3" = some u ∧
      u.status = "failed" ∧ u.result = some "Task timeout" :=
  check_running_fails_old_tasks cexTimeoutStore 400 "t3" cexTimeoutTask
    (by decide) (by decide) rfl (by decide)

end Reg

namespace P2P

/-- `HandoffRequest` (pydantic model): the fields the fallback logic
reads. -/
structure HandoffRequest where
  task_id : String
  source_node_id : String
  target_node_id : String
  model_name : String
  priority : Int
  timeout : Int
deriving Repr, DecidableEq

/-- `HandoffStatus` enum. -/
inductive HandoffStatus where
  | pending
  | in_progress
  | completed
  | failed
  | cancelled
deriving Repr, DecidableEq

/-- The `HandoffSession` dataclass. -/
structure HandoffSession where
  handoff_id : String
  request : HandoffRequest
  status : HandoffStatus
  start_time : Nat
  end_time : Option Nat
  result : Option String
  error : Option String
  retries : Nat
  max_retries : Nat
deriving Repr, DecidableEq

/-- `P2PHandoff._find_alternative_nodes`: all keys of the
`node_connections` dict except the excluded ones. -/
def findAlternativeNodes (connections : List String)
    (excludeNodes : List String) : List String :=
  connections.filter (fun n => n ∉ excludeNodes)

/-- The `for node_id in alternative_nodes` loop of `_handle_fallback`:
`_execute_handoff` against each candidate in turn (`ex` maps a target
node to `some result` on success, `none` when the HTTP call raises),
returning the first success and the list of targets attempted. -/
def tryNodes (ex : String → Option String) : List String → Option String × List String
  | [] => (none, [])
  | n :: rest =>
    match ex n with
    | some r => (some r, [n])
    | none =>
      let p := tryNodes ex rest
      (p.1, n :: p.2)

/-- `P2PHandoff._handle_fallback`: return `None` when
`retries ≥ max_retries`; otherwise increment `retries` once and try every
alternative node — excluding only the source and the original target —
until one succeeds. Returns (result, attempted targets, session). Called
once per failed `initiate_handoff`; it never touches any task record. -/
def handleFallback (session : HandoffSession) (connections : List String)
    (ex : String → Option String) : Option String × List String × HandoffSession :=
  if session.retries ≥ session.max_retries then
    (none, [], session)
  else
    let s2 := { session with retries := session.retries + 1 }
    let alts := findAlternativeNodes connections
      [session.request.source_node_id, session.request.target_node_id]
    let p := tryNodes ex alts
    (p.1, p.2, s2)

theorem tryNodes_sublist (ex : String → Option String) :
    ∀ (l : List String), (tryNodes ex l).2.Sublist l := by
  intro l
  induction l with
  | nil => simp [tryNodes]
  | cons n rest ih =>
    simp only [tryNodes]
    cases ex n with
    | some r => exact List.Sublist.cons₂ n (List.nil_sublist rest)
    | none => exact List.Sublist.cons₂ n ih

theorem findAlternativeNodes_mem {connections excl : List String} {n : String}
    (h : n ∈ findAlternativeNodes connections excl) :
    n ∈ connections ∧ n ∉ excl := by
  obtain ⟨hmem, hdec⟩ := List.mem_filter.mp h
  exact ⟨hmem, of_decide_eq_true hdec⟩

/-- The session used by the concrete fallback runs: original target `t`
from source `s`, no retries yet, the default `max_retries = 3`. -/
def cexSession : HandoffSession :=
  { handoff_id := "h1", request := ⟨"task1", "s", "t", "m", 1, 300⟩,
    status := .failed, start_time := 0, end_time := none,
    result := none, error := some "boom", retries := 0, max_retries := 3 }

/-- C5 counterexample: with five connected alternative nodes all failing,
a single fallback round performs 5 attempts against alternative targets —
more than the session's `max_retries = 3` — while `retries` is
incremented only once; no task status is written and no
`HandoffExhausted` reason exists anywhere in the handoff code. -/
theorem fallback_attempts_exceed_max_retries :
    (handleFallback cexSession ["s", "t", "a", "b", "c", "d", "e"]
       (fun _ => none)).2.1.length = 5 ∧
    cexSession.max_retries = 3 ∧
    (handleFallback cexSession ["s", "t", "a", "b", "c", "d", "e"]
       (fun _ => none)).2.1.length > cexSession.max_retries ∧
    (handleFallback cexSession ["s", "t", "a", "b", "c", "d", "e"]
       (fun _ => none)).2.2.retries = 1 := by
  decide

/-- C5 (amended): a failed handoff triggers at most one fallback round:
the session's `retries` stays within `max_retries`, every attempted
target is previously untried (distinct targets, excluding the source and
the original target, drawn from the connection registry), but the number
of attempts in the round is bounded only by the number of known
alternative nodes, not by `max_retries`; the handoff service never
updates task status and has no `HandoffExhausted` outcome. -/
theorem fallback_round_bounds (session : HandoffSession)
    (connections : List String) (ex : String → Option String)
    (hr : session.retries ≤ session.max_retries) :
    (handleFallback session connections ex).2.2.retries ≤ session.max_retries ∧
    (handleFallback session connections ex).2.1.length ≤
      (findAlternativeNodes connections
        [session.request.source_node_id, session.request.target_node_id]).length ∧
    (∀ n ∈ (handleFallback session connections ex).2.1,
      n ≠ session.request.source_node_id ∧
      n ≠ session.request.target_node_id ∧ n ∈ connections) ∧
    (connections.Nodup → (handleFallback session connections ex).2.1.Nodup) := by
  unfold handleFallback
  by_cases hge : session.retries ≥ session.max_retries
  · rw [if_pos hge]
    refine ⟨hr, Nat.zero_le _, ?_, ?_⟩
    · intro n hn
      exact absurd hn (List.not_mem_nil n)
    · intro _
      exact List.nodup_nil
  · rw [if_neg hge]
    dsimp only
    have hsub := tryNodes_sublist ex (findAlternativeNodes connections
      [session.request.source_node_id, session.request.target_node_id])
    refine ⟨by omega, hsub.length_le, ?_, ?_⟩
    · intro n hn
      have halt := hsub.subset hn
      obtain ⟨hconn, hexcl⟩ := findAlternativeNodes_mem halt
      refine ⟨?_, ?_, hconn⟩
      · intro hcontra
        exact hexcl (hcontra ▸ List.mem_cons_self ..)
      · intro hcontra
        exact hexcl (by rw [hcontra]; simp)
    · intro hnodup
      exact ((hnodup.filter _).sublist hsub)

theorem fallback_round_bounds_witness :
    (handleFallback cexSession ["s", "t", "a", "b", "c", "d", "e"]
       (fun _ => none)).2.2.retries ≤ cexSession.max_retries :=
  (fallback_round_bounds cexSession ["s", "t", "a", "b", "c", "d", "e"]
    (fun _ => none) (by decide)).1

end P2P
